import Mathlib

/-!
# Verification of the FedSysDashboard ledger pipeline (`src/app.py`)

This file is a shallow embedding, in Lean 4, of the data-relevant core of the
FedSysDashboard Streamlit application:

* the ledger reader `load_ledger` (app.py lines 83–102),
* the reshaper `ledger_to_df` (lines 105–124), including a faithful model of
  the sorting performed by `df.sort_values("round")` (numpy's generic
  introsort-based argsort, pandas' default `kind='quicksort'`),
* the display helper `truncate_hash` (lines 77–81),
* the positional node relabeling (lines 148–152 and 209–211),
* the dashboard rendering body `render_dashboard_content` (lines 133–254),
  modelled down to the level of the data it computes and the Python
  exceptions it can raise, and
* the module-level poll logic (lines 256–270), including name resolution of
  the free variable `rounds_to_show` against the module's global bindings.

Python values are embedded as `PyVal` (floats as rationals), Python
exceptions as `PyError`, fallible Python code as `Except PyError`.
Pandas cells are `Option PyVal` with `none` playing the role of `NaN`
("no value").  `json.loads` is abstracted as a parameter
`parse : String → Option (List PyDict)` (a parse failure is a
`JSONDecodeError`); the filesystem is abstracted as the document states the
program observes at its successive accesses.
-/

set_option maxRecDepth 10000

namespace FedSys

/-- Embedded Python values occurring in the ledger pipeline.
Numbers are split as Python splits them (`int` vs `float`); floats are
modelled as rationals. -/
inductive PyVal where
  | pyInt (i : Int)
  | pyFloat (q : Rat)
  | pyStr (s : String)
  | pyDict (fields : List (String × PyVal))

/-- The Python exceptions that the modelled code can raise. -/
inductive PyError where
  | fileNotFound
  | jsonDecode
  | keyError (k : String)
  | nameError (n : String)
  | indexError
  | valueError
  | typeError
  deriving Repr, DecidableEq

/-- A raw ledger entry: a parsed JSON object, i.e. a Python dict. -/
abbrev PyDict := List (String × PyVal)

/-- A parsed ledger: a Python list of dicts, the result of `json.loads`. -/
abbrev Ledger := List PyDict

/-- The state of the backing document (`data/ledger.json`) at one
filesystem access: either absent or present with some content. -/
inductive DocState where
  | absent
  | present (content : String)
  deriving Repr, DecidableEq

/-- One `open`/`read`/parse attempt of the ledger document: the body of the
`try` block of `load_ledger` (app.py lines 87–92 and 96–100).
`open` on a missing file raises `FileNotFoundError`; empty content returns
`[]` without parsing; otherwise `json.loads` either succeeds or raises
`JSONDecodeError`. -/
def read_attempt (parse : String → Option Ledger) (d : DocState) :
    Except PyError Ledger :=
  match d with
  | .absent => .error .fileNotFound
  | .present c =>
      if c = "" then .ok []
      else
        match parse c with
        | some l => .ok l
        | none => .error .jsonDecode

/-- The exception classes caught by both `except` clauses of `load_ledger`:
`(json.JSONDecodeError, FileNotFoundError)`. -/
def catchable : PyError → Bool
  | .fileNotFound => true
  | .jsonDecode => true
  | _ => false

/-- `load_ledger` (app.py lines 83–102), instrumented with the number of
`open`-and-read attempts it performs.  `ex` is the result of the initial
`LEDGER.exists()` check; `d1` is the document state seen by the first
read, `d2` the state seen by the retry read (which in the source happens
after a fixed `time.sleep(0.1)`; only the sequencing of the two
observations is modelled).  Uncaught exception classes are re-raised. -/
def load_ledger (parse : String → Option Ledger) (ex : Bool)
    (d1 d2 : DocState) : Except PyError Ledger × Nat :=
  if ex = false then (.ok [], 0)
  else
    match read_attempt parse d1 with
    | .ok l => (.ok l, 1)
    | .error e =>
        if catchable e then
          match read_attempt parse d2 with
          | .ok l => (.ok l, 2)
          | .error e2 => if catchable e2 then (.ok [], 2) else (.error e2, 2)
        else (.error e, 1)

/-- `truncate_hash` (app.py lines 77–81).  Mirrors Python string slicing:
`s[:k]` is the first `k` characters; `s[-k:]` is the last `k` characters
except that for `k = 0` Python reads `s[-0:] = s[0:]`, the whole string. -/
def truncate_hash (hash_string : PyVal) (start_chars : Nat := 8)
    (end_chars : Nat := 8) : PyVal :=
  match hash_string with
  | .pyStr s =>
      if s.length > start_chars + end_chars then
        .pyStr ((s.take start_chars) ++ "..." ++
          (if end_chars = 0 then s else s.drop (s.length - end_chars)))
      else .pyStr s
  | v => v

/-- Python's `str.startswith`, implemented over the character list (so
that concrete executions reduce inside the kernel). -/
def pyStartsWith (s p : String) : Bool := p.data.isPrefixOf s.data

/-- The positional alias map built (twice, identically) by the render body:
app.py lines 150–151 and 210–211.  Column `i` (0-based) is mapped to
`"Store_" ++ chr(65 + i)`. -/
def node_alias_map (cols : List String) : List (String × String) :=
  (cols.enum).map fun p => (p.2, "Store_" ++ String.singleton (Char.ofNat (65 + p.1)))

/-- The node-relabeling step (app.py lines 148–152): filter the columns
whose name starts with `Store_`, then alias them positionally. -/
def relabel_nodes (columns : List String) : List (String × String) :=
  node_alias_map (columns.filter (fun c => pyStartsWith c "Store_"))

/-- The alias sequence produced by the relabeling step, in column order. -/
def aliasSeq (columns : List String) : List String :=
  (relabel_nodes columns).map Prod.snd

/-! ## The sort behind `df.sort_values("round")`

`DataFrame.sort_values` defaults to `kind='quicksort'`; through
`nargsort` this is `np.argsort(values, kind='quicksort')`, numpy's
generic introsort (`npysort`'s `aquicksort`: median-of-3 Hoare
partitioning down to runs of at most `SMALL_QUICKSORT + 1` elements,
insertion sort on those runs, `aheapsort` once the depth budget
`2 * floor(log2 n)` is exhausted).  The functions below transcribe that
algorithm: `t` is the `tosort` index array, `v` the key array, and every
array mutation is an index swap.  Scan loops carry explicit fuel (the C
code bounds them by sentinels inside the segment); the fuel supplied is
always sufficient for the in-bounds executions the C code performs, and
out-of-range accesses read defaults instead of being undefined. -/

/-- `SMALL_QUICKSORT` from numpy's `npysort` (runs of at most 16 elements
are insertion sorted). -/
def SMALL_QUICKSORT : Nat := 15

/-- `v[t[i]]`: the sort key stored at `tosort` position `i`. -/
def keyAt (v : List Rat) (t : List Nat) (i : Nat) : Rat :=
  v.getD (t.getD i 0) 0

/-- `INTP_SWAP(*pi, *pj)`: swap two positions of the index array
(a no-op when a position is out of range, which the algorithm never does
on the C side). -/
def lswap (t : List Nat) (i j : Nat) : List Nat :=
  if i < t.length ∧ j < t.length then
    (t.set i (t.getD j 0)).set j (t.getD i 0)
  else t

/-- `do ++pi; while (v[*pi] < vp)`. -/
def scanUp (v : List Rat) (t : List Nat) (vp : Rat) (pi : Nat) : Nat → Nat
  | 0 => pi + 1
  | fuel+1 => if keyAt v t (pi+1) < vp then scanUp v t vp (pi+1) fuel else pi + 1

/-- `do --pj; while (vp < v[*pj])`. -/
def scanDown (v : List Rat) (t : List Nat) (vp : Rat) (pj : Nat) : Nat → Nat
  | 0 => pj - 1
  | fuel+1 => if vp < keyAt v t (pj-1) then scanDown v t vp (pj-1) fuel else pj - 1

/-- The `for (;;)` exchange loop of the Hoare partition; returns the final
index array and the split point `pi`. -/
def partitionInner (v : List Rat) (t : List Nat) (vp : Rat) (pi pj : Nat) :
    Nat → List Nat × Nat
  | 0 => (t, pi)
  | fuel+1 =>
      let pi2 := scanUp v t vp pi t.length
      let pj2 := scanDown v t vp pj t.length
      if pj2 ≤ pi2 then (t, pi2)
      else partitionInner v (lswap t pi2 pj2) vp pi2 pj2 fuel

/-- The shift-down of one insertion-sort step (`*pj-- = *pk--` … `*pj = vi`),
rendered as the equivalent chain of adjacent swaps that bubbles the element
at `k` down while it is smaller than its left neighbour, stopping at `pl`. -/
def bubbleDown (v : List Rat) (t : List Nat) (pl k : Nat) : Nat → List Nat
  | 0 => t
  | fuel+1 =>
      if pl < k ∧ keyAt v t k < keyAt v t (k-1) then
        bubbleDown v (lswap t k (k-1)) pl (k-1) fuel
      else t

/-- The insertion sort over the run `pl..pr`
(`for (pi = pl + 1; pi <= pr; ++pi) …`). -/
def insertionSortRange (v : List Rat) (t : List Nat) (pl pr : Nat) : List Nat :=
  (List.range' (pl+1) (pr - pl)).foldl (fun acc pi => bubbleDown v acc pl pi pi) t

/-- Heapsort helper: `a` is 1-based within the segment starting at `pl`,
so `a[k]` is `t[pl + k - 1]`. -/
def hkey (v : List Rat) (t : List Nat) (pl k : Nat) : Rat :=
  keyAt v t (pl + k - 1)

/-- Swap in the 1-based heap addressing of the segment at `pl`. -/
def hswap (t : List Nat) (pl i j : Nat) : List Nat :=
  lswap t (pl + i - 1) (pl + j - 1)

/-- The sift-down of `aheapsort` (the hole-based
`tmp = a[i]; … a[i] = a[j]; … a[i] = tmp` walk, rendered as the equivalent
swaps that carry the element down the heap). -/
def siftDown (v : List Rat) (t : List Nat) (pl n i : Nat) : Nat → List Nat
  | 0 => t
  | fuel+1 =>
      let j := 2 * i
      if j ≤ n then
        let j2 := if j < n ∧ hkey v t pl j < hkey v t pl (j+1) then j + 1 else j
        if hkey v t pl i < hkey v t pl j2 then
          siftDown v (hswap t pl i j2) pl n j2 fuel
        else t
      else t

/-- Heap construction: `for (l = n >> 1; l > 0; --l)` sift `a[l]` down. -/
def heapBuild (v : List Rat) (t : List Nat) (pl n : Nat) : Nat → List Nat
  | 0 => t
  | l+1 => heapBuild v (siftDown v t pl n (l+1) (n+1)) pl n l

/-- Heap extraction: `for (; n > 1; )` move the maximum to `a[n]` and
restore the heap on `a[1..n-1]`. -/
def heapExtract (v : List Rat) (t : List Nat) (pl : Nat) : Nat → List Nat
  | 0 => t
  | 1 => t
  | m+2 => heapExtract v (siftDown v (hswap t pl 1 (m+2)) pl (m+1) 1 (m+2)) pl (m+1)

/-- `aheapsort(vv, pl, pr - pl + 1)`: heapsort of the segment `pl..pr`. -/
def aheapsortRange (v : List Rat) (t : List Nat) (pl pr : Nat) : List Nat :=
  let n := pr + 1 - pl
  heapExtract v (heapBuild v t pl n (n / 2)) pl n

/-- The introsort driver of `aquicksort`.  The depth argument `m` stands
for `cdepth + 1`, so `m = 0` is the C code's `cdepth < 0` heapsort bailout;
each partition runs both sides at `m - 1` (`*psdepth++ = --cdepth`).
Segments of more than `SMALL_QUICKSORT + 1` elements are partitioned
(median-of-3 of `*pl`, `*pm`, `*pr`, pivot parked at `pr - 1`);
smaller segments are insertion sorted. -/
def introLoop (v : List Rat) (t : List Nat) (pl pr : Nat) : Nat → List Nat
  | 0 => aheapsortRange v t pl pr
  | m+1 =>
      if SMALL_QUICKSORT < pr - pl then
        let pm := pl + (pr - pl) / 2
        let t1 := if keyAt v t pm < keyAt v t pl then lswap t pm pl else t
        let t2 := if keyAt v t1 pr < keyAt v t1 pm then lswap t1 pr pm else t1
        let t3 := if keyAt v t2 pm < keyAt v t2 pl then lswap t2 pm pl else t2
        let vp := keyAt v t3 pm
        let t4 := lswap t3 pm (pr - 1)
        let s := partitionInner v t4 vp pl (pr - 1) t4.length
        let t6 := lswap s.1 s.2 (pr - 1)
        introLoop v (introLoop v t6 pl (s.2 - 1) m) (s.2 + 1) pr m
      else
        insertionSortRange v t pl pr

/-- `npy_get_msb`: the position of the most significant bit,
`floor(log2 n)`, computed with structural recursion (the halving count is
bounded by `n` itself). -/
def msbAux : Nat → Nat → Nat
  | 0, _ => 0
  | fuel+1, n => if 2 ≤ n then msbAux fuel (n / 2) + 1 else 0

/-- `npy_get_msb(n) = floor(log2 n)` for `n ≥ 1`. -/
def npy_get_msb (n : Nat) : Nat := msbAux n n

/-- `np.argsort(keys, kind='quicksort')` on a 1-d numeric array without
NaNs: numpy's generic `aquicksort` introsort applied to the identity
index array, with depth budget `npy_get_msb(n) * 2`.  This is the indexer
`pandas.DataFrame.sort_values` uses by default (newer numpy builds may
dispatch an AVX-512 SIMD argsort for some dtypes; the generic reference
algorithm is the one modelled). -/
def npy_aquicksort (keys : List Rat) : List Nat :=
  let n := keys.length
  if n ≤ 1 then List.range n
  else introLoop keys (List.range n) 0 (n - 1) (2 * npy_get_msb n + 1)

/-! ## DataFrame model and `ledger_to_df` -/

/-- A pandas DataFrame as the reshaper produces it: a column list and rows
aligned to it.  A cell is `Option PyVal`, with `none` for NaN
("no value"). -/
structure Frame where
  cols : List String
  rows : List (List (Option PyVal))

/-- `pd.DataFrame()`: the explicitly-empty sentinel table. -/
def Frame.empty : Frame := ⟨[], []⟩

/-- `df.empty`: true when an axis has length 0. -/
def Frame.isEmpty (f : Frame) : Bool := f.rows.isEmpty || f.cols.isEmpty

/-- Append a key to the accumulated column list unless already present. -/
def addKey (acc : List String) (k : String) : List String :=
  if acc.contains k then acc else acc ++ [k]

/-- Fold one row's keys into the accumulated column list. -/
def rowKeys (acc : List String) (r : PyDict) : List String :=
  r.foldl (fun a kv => addKey a kv.1) acc

/-- Column order of `pd.DataFrame(rows)` on a list of dicts: the union of
the row keys, in first-appearance order. -/
def unionKeys (rows : List PyDict) : List String :=
  rows.foldl rowKeys []

/-- Materialise one dict as a row of the frame: a cell per column, `none`
(NaN) where the dict has no entry for that column. -/
def alignRow (cols : List String) (r : PyDict) : List (Option PyVal) :=
  cols.map (fun c => r.lookup c)

/-- `entry["k"]`: direct subscripting of a dict; raises `KeyError` when the
key is missing. -/
def dict_get (entry : PyDict) (k : String) : Except PyError PyVal :=
  match entry.lookup k with
  | some v => .ok v
  | none => .error (.keyError k)

/-- The body of the `for entry in ledger` loop of `ledger_to_df`
(app.py lines 111–121): direct access to the six required fields
(`entry.get("notes", "")` defaults), and the `Store_`-prefixing dict
comprehension over `entry["node_accuracies"]` (whose `.items()` raises on
a non-dict value). -/
def entryToRow (entry : PyDict) : Except PyError PyDict := do
  let r ← dict_get entry "round"
  let ts ← dict_get entry "timestamp"
  let ga ← dict_get entry "global_accuracy"
  let ih ← dict_get entry "ipfs_hash"
  let bt ← dict_get entry "block_tx"
  let notes := (entry.lookup "notes").getD (.pyStr "")
  let na ← dict_get entry "node_accuracies"
  match na with
  | .pyDict m =>
      .ok ([("round", r), ("timestamp", ts), ("global_accuracy", ga),
            ("ipfs_hash", ih), ("block_tx", bt), ("notes", notes)] ++
           m.map (fun kv => ("Store_" ++ kv.1, kv.2)))
  | _ => .error .typeError

/-- The numeric sort key of a built row's `"round"` cell (the data model
declares `round` an integer; a float would sort numerically the same way.
Only numeric `round` columns — the int64/float64 dtypes the ledger
produces — are modelled). -/
def roundKey (r : PyDict) : Rat :=
  match r.lookup "round" with
  | some (.pyInt i) => (i : Rat)
  | some (.pyFloat q) => q
  | _ => 0

/-- `ledger_to_df` (app.py lines 105–124): the empty sentinel for an empty
ledger, otherwise one built row per entry, framed with the union of the
row keys as columns, reordered by
`df.sort_values("round").reset_index(drop=True)` — i.e. rows taken in the
order of numpy's default argsort of the `round` column. -/
def ledger_to_df (ledger : Ledger) : Except PyError Frame :=
  if ledger.isEmpty then .ok Frame.empty
  else do
    let rows ← ledger.mapM entryToRow
    let cols := unionKeys rows
    let aligned := rows.map (alignRow cols)
    let perm := npy_aquicksort (rows.map roundKey)
    .ok ⟨cols, perm.map (fun i => aligned.getD i (alignRow cols []))⟩

/-! ## The argsort always yields a permutation of the positions -/

theorem cons_set_perm {α : Type} :
    ∀ (xs : List α) (j : Nat), j < xs.length → ∀ (x d : α),
      (xs.getD j d :: xs.set j x).Perm (x :: xs) := by
  intro xs
  induction xs with
  | nil => intro j hj; simp at hj
  | cons y ys ih =>
      intro j hj x d
      cases j with
      | zero => simpa using List.Perm.swap x y ys
      | succ k =>
          have hk : k < ys.length := Nat.lt_of_succ_lt_succ (by simpa using hj)
          have h1 : (ys.getD k d :: y :: ys.set k x).Perm
              (y :: ys.getD k d :: ys.set k x) := List.Perm.swap _ _ _
          have h2 : (y :: ys.getD k d :: ys.set k x).Perm (y :: x :: ys) :=
            (ih k hk x d).cons y
          have h3 : (y :: x :: ys).Perm (x :: y :: ys) := List.Perm.swap _ _ _
          simpa using (h1.trans h2).trans h3

theorem set_set_perm {α : Type} :
    ∀ (l : List α) (i j : Nat), i < l.length → j < l.length → ∀ (d : α),
      ((l.set i (l.getD j d)).set j (l.getD i d)).Perm l := by
  intro l
  induction l with
  | nil => intro i j hi; simp at hi
  | cons y ys ih =>
      intro i j hi hj d
      cases i with
      | zero =>
          cases j with
          | zero => simp
          | succ k =>
              have hk : k < ys.length := Nat.lt_of_succ_lt_succ (by simpa using hj)
              simpa using cons_set_perm ys k hk y d
      | succ m =>
          have hm : m < ys.length := Nat.lt_of_succ_lt_succ (by simpa using hi)
          cases j with
          | zero => simpa using cons_set_perm ys m hm y d
          | succ k =>
              have hk : k < ys.length := Nat.lt_of_succ_lt_succ (by simpa using hj)
              simpa using (ih m k hm hk d).cons y

theorem lswap_perm (t : List Nat) (i j : Nat) : (lswap t i j).Perm t := by
  unfold lswap
  split
  · next h => exact set_set_perm t i j h.1 h.2 0
  · exact List.Perm.refl t

theorem partitionInner_perm :
    ∀ (fuel : Nat) (v : List Rat) (t : List Nat) (vp : Rat) (pi pj : Nat),
      (partitionInner v t vp pi pj fuel).1.Perm t := by
  intro fuel
  induction fuel with
  | zero => intro v t vp pi pj; exact List.Perm.refl t
  | succ fuel ih =>
      intro v t vp pi pj
      simp only [partitionInner]
      split
      · exact List.Perm.refl t
      · exact (ih v _ vp _ _).trans (lswap_perm t _ _)

theorem bubbleDown_perm :
    ∀ (fuel : Nat) (v : List Rat) (t : List Nat) (pl k : Nat),
      (bubbleDown v t pl k fuel).Perm t := by
  intro fuel
  induction fuel with
  | zero => intro v t pl k; exact List.Perm.refl t
  | succ fuel ih =>
      intro v t pl k
      simp only [bubbleDown]
      split
      · exact (ih v _ pl _).trans (lswap_perm t _ _)
      · exact List.Perm.refl t

theorem insertionSortRange_perm (v : List Rat) (t : List Nat) (pl pr : Nat) :
    (insertionSortRange v t pl pr).Perm t := by
  unfold insertionSortRange
  generalize List.range' (pl+1) (pr - pl) = ps
  induction ps generalizing t with
  | nil => exact List.Perm.refl t
  | cons p ps ih =>
      exact (ih (bubbleDown v t pl p p)).trans (bubbleDown_perm p v t pl p)

theorem siftDown_perm :
    ∀ (fuel : Nat) (v : List Rat) (t : List Nat) (pl n i : Nat),
      (siftDown v t pl n i fuel).Perm t := by
  intro fuel
  induction fuel with
  | zero => intro v t pl n i; exact List.Perm.refl t
  | succ fuel ih =>
      intro v t pl n i
      simp only [siftDown, hswap]
      repeat' split
      all_goals
        first
          | exact List.Perm.refl t
          | exact (ih v _ pl n _).trans (lswap_perm t _ _)

theorem heapBuild_perm :
    ∀ (l : Nat) (v : List Rat) (t : List Nat) (pl n : Nat),
      (heapBuild v t pl n l).Perm t := by
  intro l
  induction l with
  | zero => intro v t pl n; exact List.Perm.refl t
  | succ l ih =>
      intro v t pl n
      exact (ih v _ pl n).trans (siftDown_perm (n+1) v t pl n (l+1))

theorem heapExtract_perm :
    ∀ (n : Nat) (v : List Rat) (t : List Nat) (pl : Nat),
      (heapExtract v t pl n).Perm t := by
  intro n
  induction n using Nat.strong_induction_on with
  | _ n ih =>
      intro v t pl
      match n with
      | 0 => exact List.Perm.refl t
      | 1 => exact List.Perm.refl t
      | m+2 =>
          have h1 := ih (m+1) (by omega) v
            (siftDown v (hswap t pl 1 (m+2)) pl (m+1) 1 (m+2)) pl
          have h2 := siftDown_perm (m+2) v (hswap t pl 1 (m+2)) pl (m+1) 1
          have h3 := lswap_perm t (pl + 1 - 1) (pl + (m+2) - 1)
          exact (h1.trans h2).trans h3

theorem aheapsortRange_perm (v : List Rat) (t : List Nat) (pl pr : Nat) :
    (aheapsortRange v t pl pr).Perm t := by
  unfold aheapsortRange
  exact (heapExtract_perm _ v _ pl).trans (heapBuild_perm _ v t pl _)

theorem introLoop_perm :
    ∀ (m : Nat) (v : List Rat) (t : List Nat) (pl pr : Nat),
      (introLoop v t pl pr m).Perm t := by
  intro m
  induction m with
  | zero => intro v t pl pr; exact aheapsortRange_perm v t pl pr
  | succ m ih =>
      intro v t pl pr
      simp only [introLoop]
      split
      · refine ((ih v _ _ pr).trans ((ih v _ pl _).trans ?_))
        refine (lswap_perm _ _ _).trans ?_
        refine (partitionInner_perm _ v _ _ pl _).trans ?_
        refine (lswap_perm _ _ _).trans ?_
        repeat' split
        all_goals
          first
            | exact List.Perm.refl t
            | exact lswap_perm t _ _
            | exact (lswap_perm _ _ _).trans (lswap_perm t _ _)
            | exact ((lswap_perm _ _ _).trans (lswap_perm _ _ _)).trans
                (lswap_perm t _ _)
      · exact insertionSortRange_perm v t pl pr

theorem npy_aquicksort_perm (keys : List Rat) :
    (npy_aquicksort keys).Perm (List.range keys.length) := by
  simp only [npy_aquicksort]
  split
  · exact List.Perm.refl _
  · exact introLoop_perm _ keys (List.range keys.length) 0 (keys.length - 1)

theorem npy_aquicksort_length (keys : List Rat) :
    (npy_aquicksort keys).length = keys.length := by
  have h := (npy_aquicksort_perm keys).length_eq
  simpa using h

theorem npy_aquicksort_mem_lt (keys : List Rat) (i : Nat)
    (h : i ∈ npy_aquicksort keys) : i < keys.length := by
  have := (npy_aquicksort_perm keys).mem_iff.mp h
  simpa using this

/-! ## The dashboard render body (app.py lines 133–254)

The rendering surface (Streamlit widgets, CSS) is out of scope; what is
modelled is every piece of data the body computes and every Python
exception its data accesses can raise, in source order.  The result is a
`RenderResult`: the "no data yet" early return, or the collection of
displayed values. -/

/-- `df.tail(n)` (pandas): the last `n` rows for positive `n`; `tail(0)`
is empty; a negative `n` drops the first `-n` rows (`self.iloc[-n:]`). -/
def frameTail (rows : List (List (Option PyVal))) (n : Int) :
    List (List (Option PyVal)) :=
  if n = 0 then []
  else if 0 < n then rows.drop (rows.length - n.toNat)
  else rows.drop (-n).toNat

/-- Position of a column label, raising `KeyError` when the label is
absent (pandas `df["c"]` / `Series["c"]` on a missing label). -/
def colIndexE (cols : List String) (c : String) : Except PyError Nat :=
  match cols.findIdx? (fun x => x == c) with
  | some i => .ok i
  | none => .error (.keyError c)

/-- `Series["c"]` on an aligned row: the cell (possibly NaN), or
`KeyError` when the label is absent. -/
def seriesGetE (cols : List String) (row : List (Option PyVal)) (c : String) :
    Except PyError (Option PyVal) :=
  match cols.findIdx? (fun x => x == c) with
  | some i => .ok (row.getD i none)
  | none => .error (.keyError c)

/-- `Series.get(c, default)`: the cell when the label exists (NaN stays
NaN), the default otherwise. -/
def seriesGetD (cols : List String) (row : List (Option PyVal)) (c : String)
    (dflt : Option PyVal) : Option PyVal :=
  match cols.findIdx? (fun x => x == c) with
  | some i => row.getD i none
  | none => dflt

/-- `df_display[c] = df_display[c].apply(truncate_hash)` at column
position `i`: NaN cells stay NaN (`truncate_hash` returns any non-string,
NaN included, verbatim). -/
def applyTruncate (i : Nat) (rows : List (List (Option PyVal))) :
    List (List (Option PyVal)) :=
  rows.map (fun r => r.set i ((r.getD i none).map (fun v => truncate_hash v)))

/-- `int(x)` on a cell: ints verbatim, floats truncated toward zero,
numeric strings parsed (`ValueError` otherwise), `NaN` raises
`ValueError`, dicts `TypeError`. -/
def pyIntOf : Option PyVal → Except PyError Int
  | some (.pyInt i) => .ok i
  | some (.pyFloat q) => .ok (q.num / (q.den : Int))
  | some (.pyStr s) =>
      match s.toInt? with
      | some i => .ok i
      | none => .error .valueError
  | some (.pyDict _) => .error .typeError
  | none => .error .valueError

/-- A cell used in arithmetic (`latest["global_accuracy"] - prev_acc`,
`* 100`): NaN propagates as `none` (float NaN arithmetic does not raise),
non-numeric values raise. -/
def numCell : Option PyVal → Except PyError (Option Rat)
  | some (.pyInt i) => .ok (some (i : Rat))
  | some (.pyFloat q) => .ok (some q)
  | none => .ok none
  | some _ => .error .typeError

/-- Lines 180–181: `timestamp.split("T")[1].split(".")[0]` when the
timestamp contains a `"T"`, the raw value otherwise; `"T" in x` on a
non-string (NaN included) raises `TypeError`.  Both separators are single
characters, so the splits are implemented over the character list:
`split("T")[1]` is the run after the first `'T'` up to the next `'T'`,
and `split(".")[0]` of that is the part before the first `'.'`. -/
def timestampCaption (ts : Option PyVal) : Except PyError String :=
  match ts with
  | some (.pyStr s) =>
      if s.data.contains 'T' then
        .ok (String.mk ((((s.data.dropWhile (fun c => !(c == 'T'))).drop 1).takeWhile
          (fun c => !(c == 'T'))).takeWhile (fun c => !(c == '.'))))
      else .ok s
  | _ => .error .typeError

/-- `df['round'] == 10` elementwise: numeric equality with 10; NaN and
non-numbers compare unequal. -/
def cellEq10 : Option PyVal → Bool
  | some (.pyInt i) => i == 10
  | some (.pyFloat q) => q == (10 : Rat)
  | _ => false

/-- The styler operations applied before display
(`"{:.2%}".format` / `background_gradient`) require each styled cell to
be numeric or NaN; a string or dict raises when the styled table is
rendered. -/
def checkNumericCol (rows : List (List (Option PyVal))) (i : Nat)
    (e : PyError) : Except PyError Unit :=
  if rows.all (fun r =>
      match r.getD i none with
      | none => true
      | some (.pyInt _) => true
      | some (.pyFloat _) => true
      | _ => false)
  then .ok () else .error e

/-- The "Node Performance (Round 10)" panel outcome (lines 200–224). -/
inductive Round10View where
  | notAvailable
  | noNodeData
  | chart (data : List (String × PyVal))

/-- Line 249: the transaction hash used for the explorer link is a
hardcoded string literal (despite the adjacent
`# Get the full block_tx for the link` comment). -/
def full_block_tx : String :=
  "0x008a3ef87cb15c2490b8e3029a356812b217e8c2e49389c62945eb125a25722a"

/-- Lines 250–254: the explorer link shown in the Blockchain Info tab
(`none` models the `"No transaction recorded"` branch, reachable only if
the hardcoded literal were empty). -/
def txView : Option String :=
  if full_block_tx = "" then none
  else some ("https://sepolia.etherscan.io/tx/" ++ full_block_tx)

/-- The displayed data computed by one successful non-empty render. -/
structure RenderOutput where
  currentRound : Int
  accuracyPct : Option Rat
  accDelta : Option Rat
  activeNodes : Nat
  lastUpdate : String
  accSeries : List (Option PyVal × Option PyVal)
  round10 : Round10View
  detailCols : List String
  nodeCols : List String
  txLink : Option String

/-- Outcome of `render_dashboard_content`: the empty-table "no data yet"
notice, or the rendered content. -/
inductive RenderResult where
  | noData
  | content (out : RenderOutput)

/-- `render_dashboard_content(df, rounds_to_show)` (lines 133–254), in
source order: the `df.empty` early return; the trailing-window filter
`df.tail(rounds_to_show)`; the display copy with truncated hash columns;
the positional rename of `Store_` columns; the four KPI values (current
round, accuracy with delta against the previous row — the previous value
defaulting to the latest when fewer than two rows exist —, active-node
count, timestamp caption); the accuracy trend series; the round-10 node
panel; the detail table column selection with its numeric styling; the
node matrix styling; and the hardcoded blockchain link. -/
def render_dashboard_content (df : Frame) (rounds_to_show : Int) :
    Except PyError RenderResult :=
  if df.isEmpty then .ok .noData
  else do
    let rows := frameTail df.rows rounds_to_show
    let cols := df.cols
    let ipfsIdx ← colIndexE cols "ipfs_hash"
    let rowsD1 := applyTruncate ipfsIdx rows
    let btIdx ← colIndexE cols "block_tx"
    let rowsD := applyTruncate btIdx rowsD1
    let colsD := cols.map (fun c => ((relabel_nodes cols).lookup c).getD c)
    let latest ← match rows.getLast? with
      | some r => pure r
      | none => throw .indexError
    let currentRound ← pyIntOf (seriesGetD cols latest "round" (some (.pyInt 0)))
    let gaLatest ← seriesGetE cols latest "global_accuracy"
    let prevCell ←
      if 1 < rows.length then
        seriesGetE cols (rows.getD (rows.length - 2) []) "global_accuracy"
      else pure gaLatest
    let gaL ← numCell gaLatest
    let gaP ← numCell prevCell
    let accDelta :=
      match gaL, gaP with
      | some a, some b => some ((a - b) * 100)
      | _, _ => none
    let accuracyPct := gaL.map (fun a => a * 100)
    let activeNodes := (cols.filter (fun c => pyStartsWith c "Store_")).length
    let lastUpdate ← timestampCaption (seriesGetD cols latest "timestamp" (some (.pyStr "")))
    let rIdx ← colIndexE cols "round"
    let gIdx ← colIndexE cols "global_accuracy"
    let accSeries := rows.map (fun r => (r.getD rIdx none, r.getD gIdx none))
    let round10 :=
      let r10 := rows.filter (fun r => cellEq10 (r.getD rIdx none))
      if r10.isEmpty then Round10View.notAvailable
      else
        let last10 := r10.getLastD []
        let ncols := cols.filter (fun c => pyStartsWith c "Store_")
        let nmap := node_alias_map ncols
        let perf := ncols.filterMap (fun c =>
          match seriesGetD cols last10 c none with
          | some v => some (((nmap.lookup c).getD c, v))
          | none => none)
        if perf.isEmpty then Round10View.noNodeData else Round10View.chart perf
    let detailCols := ["round", "timestamp", "global_accuracy", "ipfs_hash",
                       "block_tx", "notes"]
    let _ ← (if detailCols.all (fun c => colsD.contains c) then .ok ()
             else .error (.keyError "display_cols") : Except PyError Unit)
    let _ ← checkNumericCol rowsD gIdx .valueError
    let nodeColsD := colsD.filter (fun c => pyStartsWith c "Store_")
    let _ ← (nodeColsD.foldlM (fun _ c => do
              let i ← colIndexE colsD c
              checkNumericCol rowsD i .typeError) () : Except PyError Unit)
    .ok (.content
      { currentRound := currentRound
        accuracyPct := accuracyPct
        accDelta := accDelta
        activeNodes := activeNodes
        lastUpdate := lastUpdate
        accSeries := accSeries
        round10 := round10
        detailCols := detailCols
        nodeCols := nodeColsD
        txLink := txView })

/-! ## Cache and module-level poll logic (lines 126–129, 256–270) -/

/-- `get_cached_data` (lines 126–129): `st.cache_data(ttl=1)` is
semantically transparent on a cache miss (within the 1-second window it
replays the previously computed value); the recomputation path
`ledger_to_df(load_ledger())` is what is modelled.  An exception from
either stage propagates to the caller. -/
def get_cached_data (parse : String → Option Ledger) (ex : Bool)
    (d1 d2 : DocState) : Except PyError Frame := do
  let l ← (load_ledger parse ex d1 d2).1
  ledger_to_df l

/-- The names bound at module level in `src/app.py` (the imports of lines
1–7 and the top-level assignments `LEDGER`, the four `def`s, `placeholder`
and `df`).  `rounds_to_show` is not among them. -/
def module_globals : List String :=
  ["st", "pd", "json", "Path", "datetime", "time", "logging", "LEDGER",
   "truncate_hash", "load_ledger", "ledger_to_df", "get_cached_data",
   "render_dashboard_content", "placeholder", "df"]

/-- Evaluate a module-level variable reference: Python raises `NameError`
for a name with no binding. -/
def resolve_name (n : String) : Except PyError Unit :=
  if module_globals.contains n then .ok () else .error (.nameError n)

/-- The initial module-level render (lines 259–262): `df =
get_cached_data()` and then the call
`render_dashboard_content(df, rounds_to_show)`, whose second argument is
the free name `rounds_to_show`; `rts` is the integer that name would have
to denote for the call to proceed. -/
def initial_render (parse : String → Option Ledger) (ex : Bool)
    (d1 d2 : DocState) (rts : Int) : Except PyError RenderResult := do
  let f ← get_cached_data parse ex d1 d2
  let _ ← resolve_name "rounds_to_show"
  render_dashboard_content f rts

/-- One iteration of the live update loop body (lines 267–270): after the
sleep, re-fetch and re-render — textually the same computation as the
initial render, including the free `rounds_to_show` reference. -/
def loop_tick (parse : String → Option Ledger) (ex : Bool) (d1 d2 : DocState)
    (rts : Int) : Except PyError RenderResult :=
  initial_render parse ex d1 d2 rts

/-! ## Claim theorems -/

/-- A concrete stand-in for `json.loads`, defined on the document strings
the witnesses use (any other content is a parse failure). -/
def parseDemo : String → Option Ledger := fun s =>
  if s = "[]" then some []
  else if s = "[{}]" then some [[]]
  else none

theorem read_attempt_catchable {parse : String → Option Ledger} {d : DocState}
    {e : PyError} (h : read_attempt parse d = .error e) : catchable e = true := by
  cases d with
  | absent =>
      simp only [read_attempt] at h
      have he : PyError.fileNotFound = e := by injection h
      rw [← he]; rfl
  | present c =>
      simp only [read_attempt] at h
      split at h
      · exact absurd h (by simp)
      · split at h
        · exact absurd h (by simp)
        · have he : PyError.jsonDecode = e := by injection h
          rw [← he]; rfl

/-- The reader never raises: whatever the document does, `load_ledger`
returns a value. -/
theorem load_ledger_never_fails (parse : String → Option Ledger) (ex : Bool)
    (d1 d2 : DocState) : ∃ l, (load_ledger parse ex d1 d2).1 = .ok l := by
  unfold load_ledger
  split
  · exact ⟨[], rfl⟩
  · cases h1 : read_attempt parse d1 with
    | ok l => exact ⟨l, rfl⟩
    | error e =>
        dsimp only
        rw [read_attempt_catchable h1, if_pos rfl]
        cases h2 : read_attempt parse d2 with
        | ok l => exact ⟨l, rfl⟩
        | error e2 =>
            dsimp only
            rw [read_attempt_catchable h2, if_pos rfl]
            exact ⟨[], rfl⟩

/-- **C1.** For every state of the backing ledger document, `load_ledger`
never raises to its caller: a missing document (a false `exists()` check,
or a read attempt failing at both tries) yields the empty sequence, empty
content yields the empty sequence, a parse failure on both the first
attempt and the single retry yields the empty sequence; and
`ledger_to_df` applied to the empty sequence returns the explicitly-empty
`pd.DataFrame()` sentinel. -/
theorem C1_reader_empty_safe (parse : String → Option Ledger) (ex : Bool)
    (d1 d2 : DocState) :
    (∃ l, (load_ledger parse ex d1 d2).1 = .ok l) ∧
    (ex = false → (load_ledger parse ex d1 d2).1 = .ok []) ∧
    (d1 = .present "" → (load_ledger parse ex d1 d2).1 = .ok []) ∧
    ((∃ e1, read_attempt parse d1 = .error e1) →
      (∃ e2, read_attempt parse d2 = .error e2) →
      (load_ledger parse ex d1 d2).1 = .ok []) ∧
    ledger_to_df [] = .ok Frame.empty := by
  refine ⟨load_ledger_never_fails parse ex d1 d2, ?_, ?_, ?_, rfl⟩
  · intro h
    subst h
    rfl
  · intro h
    subst h
    unfold load_ledger
    split
    · rfl
    · rfl
  · rintro ⟨e1, h1⟩ ⟨e2, h2⟩
    unfold load_ledger
    split
    · rfl
    · rw [h1]
      dsimp only
      rw [read_attempt_catchable h1, if_pos rfl, h2]
      dsimp only
      rw [read_attempt_catchable h2, if_pos rfl]

/-- Witness for C1: a document that is unparsable at both reads loads as
the empty ledger, which reshapes to the empty sentinel. -/
theorem C1_reader_empty_safe_witness :
    (load_ledger parseDemo true (.present "junk") (.present "junk")).1 = .ok [] ∧
    ledger_to_df [] = .ok Frame.empty :=
  ⟨(C1_reader_empty_safe parseDemo true (.present "junk") (.present "junk")).2.2.2.1
      ⟨.jsonDecode, rfl⟩ ⟨.jsonDecode, rfl⟩,
   (C1_reader_empty_safe parseDemo true (.present "junk") (.present "junk")).2.2.2.2⟩

/-- **C2.** If the first read of the document fails to parse but the
second read (taken after the fixed retry delay) yields well-formed
content, `load_ledger` returns the sequence parsed from the second read —
and the read-and-parse is attempted at most twice in every execution,
i.e. retried exactly once, never more. -/
theorem C2_retry_once (parse : String → Option Ledger) (c1 c2 : String)
    (l : Ledger) (h1 : parse c1 = none) (hne1 : c1 ≠ "")
    (h2 : parse c2 = some l) (hne2 : c2 ≠ "") :
    load_ledger parse true (.present c1) (.present c2) = (.ok l, 2) ∧
    ∀ (p : String → Option Ledger) (ex : Bool) (e1 e2 : DocState),
      (load_ledger p ex e1 e2).2 ≤ 2 := by
  constructor
  · have hr1 : read_attempt parse (.present c1) = .error .jsonDecode := by
      simp only [read_attempt]
      rw [if_neg hne1, h1]
    have hr2 : read_attempt parse (.present c2) = .ok l := by
      simp only [read_attempt]
      rw [if_neg hne2, h2]
    unfold load_ledger
    rw [if_neg (by simp), hr1]
    dsimp only
    rw [read_attempt_catchable hr1, if_pos rfl, hr2]
  · intro p ex e1 e2
    unfold load_ledger
    split
    · exact Nat.zero_le 2
    · cases hr : read_attempt p e1 with
      | ok _ => exact Nat.le_of_lt Nat.one_lt_two
      | error e =>
          dsimp only
          rw [read_attempt_catchable hr, if_pos rfl]
          cases read_attempt p e2 with
          | ok _ => exact Nat.le_refl 2
          | error e2 => dsimp only; split <;> exact Nat.le_refl 2

/-- Witness for C2: an unparsable first read followed by a parsable second
read returns the second parse after exactly two reads. -/
theorem C2_retry_once_witness :
    load_ledger parseDemo true (.present "junk") (.present "[]") = (.ok [], 2) ∧
    ∀ (p : String → Option Ledger) (ex : Bool) (e1 e2 : DocState),
      (load_ledger p ex e1 e2).2 ≤ 2 :=
  C2_retry_once parseDemo "junk" "[]" [] rfl (by decide) rfl (by decide)

/-- **C5 counterexample.** The claim's predicted outputs are wrong at two
explicit inputs: on the 66-character sample hash with the defaults `8, 8`
the function returns `"0x008a3e...5a25722a"`, not the claim's
`"0x008a3e...e5722a"`; and for `keep_start = 1, keep_end = 0` on `"abc"`
(length 3 > 1 + 0) Python's `s[-0:]` is the whole string, so the result is
`"a...abc"`, not the claimed `first 1 ++ "..." ++ last 0 = "a..."`. -/
theorem C5_counterexample :
    truncate_hash (.pyStr full_block_tx) 8 8 = .pyStr "0x008a3e...5a25722a" ∧
    "0x008a3e...5a25722a" ≠ "0x008a3e...e5722a" ∧
    truncate_hash (.pyStr "abc") 1 0 = .pyStr "a...abc" ∧
    "a...abc" ≠ "a..." :=
  ⟨rfl, by decide, rfl, by decide⟩

/-- **C5 amended.** For a string of length strictly greater than
`keep_start + keep_end` with `keep_end ≥ 1`, `truncate_hash` returns the
first `keep_start` characters, `"..."`, then the last `keep_end`
characters (for `keep_end = 0` the Python slice `s[-0:]` appends the
whole string instead); any string of length at most
`keep_start + keep_end` and any non-string value is returned unchanged;
with the defaults `8, 8` the 66-character sample hash yields
`"0x008a3e...5a25722a"` and any string of length ≤ 16 is unchanged. -/
theorem C5_amended :
    (∀ (s : String) (ks ke : Nat), 1 ≤ ke → s.length > ks + ke →
      truncate_hash (.pyStr s) ks ke =
        .pyStr (s.take ks ++ "..." ++ s.drop (s.length - ke))) ∧
    (∀ (s : String) (ks ke : Nat), s.length ≤ ks + ke →
      truncate_hash (.pyStr s) ks ke = .pyStr s) ∧
    (∀ (s : String) (ks : Nat),
      truncate_hash (.pyStr s) ks 0 =
        if s.length > ks then .pyStr (s.take ks ++ "..." ++ s) else .pyStr s) ∧
    (∀ (i : Int) (ks ke : Nat), truncate_hash (.pyInt i) ks ke = .pyInt i) ∧
    (∀ (q : Rat) (ks ke : Nat), truncate_hash (.pyFloat q) ks ke = .pyFloat q) ∧
    (∀ (d : List (String × PyVal)) (ks ke : Nat),
      truncate_hash (.pyDict d) ks ke = .pyDict d) ∧
    truncate_hash (.pyStr full_block_tx) = .pyStr "0x008a3e...5a25722a" ∧
    (∀ s : String, s.length ≤ 16 → truncate_hash (.pyStr s) = .pyStr s) := by
  refine ⟨?_, ?_, ?_, fun _ _ _ => rfl, fun _ _ _ => rfl, fun _ _ _ => rfl, rfl, ?_⟩
  · intro s ks ke hke hlen
    unfold truncate_hash
    dsimp only
    rw [if_pos hlen, if_neg (by omega)]
  · intro s ks ke hlen
    unfold truncate_hash
    dsimp only
    rw [if_neg (by omega)]
  · intro s ks
    unfold truncate_hash
    dsimp only
    by_cases h : s.length > ks + 0
    · rw [if_pos h, if_pos rfl, if_pos (by omega)]
    · rw [if_neg h, if_neg (by omega)]
  · intro s hlen
    unfold truncate_hash
    dsimp only
    rw [if_neg (by omega)]

/-- Witness for C5 amended: the threshold case, the unchanged case and the
`keep_end = 0` quirk at concrete strings. -/
theorem C5_amended_witness :
    truncate_hash (.pyStr "0123456789abcdefX") 8 8 = .pyStr "01234567...9abcdefX" ∧
    truncate_hash (.pyStr "0123456789abcdef") 8 8 = .pyStr "0123456789abcdef" ∧
    truncate_hash (.pyStr "0123456789abcdef") = .pyStr "0123456789abcdef" :=
  ⟨C5_amended.1 "0123456789abcdefX" 8 8 (by decide) (by decide),
   C5_amended.2.1 "0123456789abcdef" 8 8 (by decide),
   C5_amended.2.2.2.2.2.2.2 "0123456789abcdef" (by decide)⟩

theorem alias_snd_aux (l : List String) :
    ∀ n : Nat,
      ((List.enumFrom n l).map
        (fun p => (p.2, "Store_" ++ String.singleton (Char.ofNat (65 + p.1))))).map
          Prod.snd =
      (List.range' n l.length).map
        (fun i => "Store_" ++ String.singleton (Char.ofNat (65 + i))) := by
  induction l with
  | nil => intro n; rfl
  | cons x xs ih =>
      intro n
      simpa [List.range'_succ] using ih (n + 1)

theorem node_alias_map_snd (l : List String) :
    (node_alias_map l).map Prod.snd =
      (List.range l.length).map
        (fun i => "Store_" ++ String.singleton (Char.ofNat (65 + i))) := by
  rw [List.range_eq_range']
  exact alias_snd_aux l 0

/-- **C7.** The node-relabeling step assigns display aliases purely by
position: the alias sequence is determined by the number of `Store_`
columns alone (`"Store_" ++ chr(65+i)` at position `i`), so any two
column lists with equally many node columns produce identical alias
sequences — the aliases reveal only the count and order of the node
columns, never the node identifiers' content. -/
theorem C7_positional_aliases :
    (∀ columns : List String,
      aliasSeq columns =
        (List.range ((columns.filter (fun c => pyStartsWith c "Store_")).length)).map
          (fun i => "Store_" ++ String.singleton (Char.ofNat (65 + i)))) ∧
    (∀ cols1 cols2 : List String,
      (cols1.filter (fun c => pyStartsWith c "Store_")).length =
        (cols2.filter (fun c => pyStartsWith c "Store_")).length →
      aliasSeq cols1 = aliasSeq cols2) := by
  constructor
  · intro columns
    unfold aliasSeq relabel_nodes
    exact node_alias_map_snd _
  · intro cols1 cols2 h
    unfold aliasSeq relabel_nodes
    rw [node_alias_map_snd, node_alias_map_snd, h]

/-- Witness for C7: two different single-node column sets get the same
alias sequence. -/
theorem C7_positional_aliases_witness :
    aliasSeq ["Store_1f8c2a", "round"] = aliasSeq ["notes", "Store_zz91"] :=
  C7_positional_aliases.2 ["Store_1f8c2a", "round"] ["notes", "Store_zz91"]
    (by decide)

theorem initial_render_nameError {parse : String → Option Ledger} {ex : Bool}
    {d1 d2 : DocState} {rts : Int} {f : Frame}
    (h : get_cached_data parse ex d1 d2 = .ok f) :
    initial_render parse ex d1 d2 rts = .error (.nameError "rounds_to_show") := by
  unfold initial_render
  rw [h]
  rfl

theorem initial_render_propagates {parse : String → Option Ledger} {ex : Bool}
    {d1 d2 : DocState} {rts : Int} {e : PyError}
    (h : get_cached_data parse ex d1 d2 = .error e) :
    initial_render parse ex d1 d2 rts = .error e := by
  unfold initial_render
  rw [h]
  rfl

/-- **C10.** `rounds_to_show` is bound nowhere at module level, so for
every execution in which the data pipeline itself succeeds, both the
initial render call and the live-loop render call raise
`NameError("rounds_to_show")` when evaluating their argument list — and
for every document state whatsoever, the initial render never completes:
no render tick ever returns a value. -/
theorem C10_unbound_rounds_to_show :
    module_globals.contains "rounds_to_show" = false ∧
    (∀ (parse : String → Option Ledger) (ex : Bool) (d1 d2 : DocState)
        (f : Frame) (rts : Int),
      get_cached_data parse ex d1 d2 = .ok f →
      initial_render parse ex d1 d2 rts = .error (.nameError "rounds_to_show") ∧
      loop_tick parse ex d1 d2 rts = .error (.nameError "rounds_to_show")) ∧
    (∀ (parse : String → Option Ledger) (ex : Bool) (d1 d2 : DocState)
        (rts : Int) (out : RenderResult),
      initial_render parse ex d1 d2 rts ≠ .ok out) := by
  refine ⟨rfl, ?_, ?_⟩
  · intro parse ex d1 d2 f rts h
    exact ⟨initial_render_nameError h, initial_render_nameError h⟩
  · intro parse ex d1 d2 rts out h
    cases hg : get_cached_data parse ex d1 d2 with
    | ok f => rw [initial_render_nameError hg] at h; exact absurd h (by simp)
    | error e => rw [initial_render_propagates hg] at h; exact absurd h (by simp)

/-- Witness for C10: with a missing ledger document the pipeline yields the
empty frame, and the initial render still dies with the `NameError`. -/
theorem C10_unbound_rounds_to_show_witness :
    initial_render parseDemo false .absent .absent 5 =
      .error (.nameError "rounds_to_show") :=
  ((C10_unbound_rounds_to_show.2.1 parseDemo false .absent .absent
      Frame.empty 5) rfl).1

/-- A one-row frame whose record's `block_tx` is `"0xdead"`. -/
def txframe : Frame :=
  ⟨["round", "timestamp", "global_accuracy", "ipfs_hash", "block_tx", "notes"],
   [[some (.pyInt 1), some (.pyStr "t"), some (.pyFloat (1/2)),
     some (.pyStr "h"), some (.pyStr "0xdead"), some (.pyStr "")]]⟩

/-- The content a successful non-empty render produced (a fallback record
for the impossible branches). -/
def renderOutputOf (df : Frame) (n : Int) : RenderOutput :=
  match render_dashboard_content df n with
  | .ok (.content o) => o
  | _ =>
      { currentRound := 0, accuracyPct := none, accDelta := none,
        activeNodes := 0, lastUpdate := "", accSeries := [],
        round10 := .notAvailable, detailCols := [], nodeCols := [],
        txLink := none }

/-- **C8.** The rendered blockchain viewer URL does not interpolate the
round's `block_tx`: for a rendered round whose record carries
`block_tx = "0xdead"`, the link shown is the fixed hardcoded sample hash
(`full_block_tx`) inside the explorer template, not the record's
identifier — contradicting both the claim and the source's own
`# Get the full block_tx for the link` comment. -/
theorem C8_link_ignores_block_tx :
    render_dashboard_content txframe 5 = .ok (.content (renderOutputOf txframe 5)) ∧
    seriesGetD txframe.cols (txframe.rows.getLastD []) "block_tx" none =
      some (.pyStr "0xdead") ∧
    (renderOutputOf txframe 5).txLink =
      some ("https://sepolia.etherscan.io/tx/" ++ full_block_tx) ∧
    (renderOutputOf txframe 5).txLink ≠
      some ("https://sepolia.etherscan.io/tx/" ++ "0xdead") :=
  ⟨rfl, rfl, rfl, by decide⟩

theorem load_ledger_empty_of_both_fail (parse : String → Option Ledger)
    (ex : Bool) (d1 d2 : DocState)
    (h1 : ∃ e1, read_attempt parse d1 = .error e1)
    (h2 : ∃ e2, read_attempt parse d2 = .error e2) :
    (load_ledger parse ex d1 d2).1 = .ok [] := by
  obtain ⟨e1, h1⟩ := h1
  obtain ⟨e2, h2⟩ := h2
  unfold load_ledger
  split
  · rfl
  · rw [h1]
    dsimp only
    rw [read_attempt_catchable h1, if_pos rfl, h2]
    dsimp only
    rw [read_attempt_catchable h2, if_pos rfl]

/-- **C9 counterexample.** A successfully parsed ledger holding one record
that lacks the required fields (`json.loads("[{}]") = [{}]`) makes the
reshaper raise `KeyError("round")`, and that error propagates uncaught
through the cached fetch into the poll-loop tick — so a downstream
failure does terminate the loop, contrary to the claim. -/
theorem C9_counterexample :
    (load_ledger parseDemo true (.present "[{}]") (.present "[{}]")).1 = .ok [[]] ∧
    ledger_to_df [[]] = .error (.keyError "round") ∧
    loop_tick parseDemo true (.present "[{}]") (.present "[{}]") 5 =
      .error (.keyError "round") :=
  ⟨rfl, rfl, rfl⟩

/-- **C9 amended.** Document-level failures are contained: the reader
never raises whatever the document does, a document unreadable at both
attempts yields the empty frame from the cached fetch, and the render
step treats the empty table as the valid "no data yet" state rather than
an error.  But the containment does not extend to a malformed record
inside a successfully parsed document (the reshaper's `KeyError` escapes,
see the counterexample), nor does any tick complete as written (the
render call's `rounds_to_show` is unbound). -/
theorem C9_amended :
    (∀ (parse : String → Option Ledger) (ex : Bool) (d1 d2 : DocState),
      ∃ l, (load_ledger parse ex d1 d2).1 = .ok l) ∧
    (∀ (parse : String → Option Ledger) (ex : Bool) (d1 d2 : DocState),
      (∃ e1, read_attempt parse d1 = .error e1) →
      (∃ e2, read_attempt parse d2 = .error e2) →
      get_cached_data parse ex d1 d2 = .ok Frame.empty) ∧
    (∀ n : Int, render_dashboard_content Frame.empty n = .ok .noData) := by
  refine ⟨load_ledger_never_fails, ?_, fun _ => rfl⟩
  intro parse ex d1 d2 h1 h2
  unfold get_cached_data
  rw [load_ledger_empty_of_both_fail parse ex d1 d2 h1 h2]
  rfl

/-- Witness for C9 amended: an unparsable document at both reads produces
the empty frame, which renders as the "no data yet" state. -/
theorem C9_amended_witness :
    get_cached_data parseDemo true (.present "junk") (.present "junk") =
      .ok Frame.empty ∧
    render_dashboard_content Frame.empty 5 = .ok .noData :=
  ⟨C9_amended.2.1 parseDemo true (.present "junk") (.present "junk")
      ⟨.jsonDecode, rfl⟩ ⟨.jsonDecode, rfl⟩,
   C9_amended.2.2 5⟩

/-! ## Structure of the reshaped frame (for C3 and C4) -/

theorem ebind_ok {ε α β : Type} (a : α) (k : α → Except ε β) :
    (Except.ok a >>= k) = k a := rfl

theorem ebind_error {ε α β : Type} (e : ε) (k : α → Except ε β) :
    ((Except.error e : Except ε α) >>= k) = .error e := rfl

theorem epure_bind {ε α β : Type} (a : α) (k : α → Except ε β) :
    ((pure a : Except ε α) >>= k) = k a := rfl

theorem mapM_aux_ok_length {α β ε : Type} (f : α → Except ε β) :
    ∀ (l : List α) (res : List β), l.mapM' f = .ok res → res.length = l.length := by
  intro l
  induction l with
  | nil =>
      intro res h
      cases h
      rfl
  | cons x xs ih =>
      intro res h
      simp only [List.mapM'] at h
      cases hy : f x with
      | error e => rw [hy, ebind_error] at h; exact absurd h (by simp)
      | ok y =>
          rw [hy, ebind_ok] at h
          cases hys : xs.mapM' f with
          | error e => rw [hys, ebind_error] at h; exact absurd h (by simp)
          | ok ys =>
              rw [hys, ebind_ok] at h
              cases h
              simp [ih ys hys]

theorem mapM_ok_length {α β ε : Type} (f : α → Except ε β) (l : List α)
    (res : List β) (h : l.mapM f = .ok res) : res.length = l.length :=
  mapM_aux_ok_length f l res (by rwa [List.mapM'_eq_mapM])

theorem addKey_preserve {acc : List String} {c : String} (k : String)
    (h : c ∈ acc) : c ∈ addKey acc k := by
  unfold addKey
  split
  · exact h
  · exact List.mem_append_left _ h

theorem addKey_self (acc : List String) (k : String) : k ∈ addKey acc k := by
  unfold addKey
  split
  · next h => exact List.mem_of_elem_eq_true h
  · exact List.mem_append_right _ (List.mem_singleton.mpr rfl)

theorem rowKeys_preserve {c : String} :
    ∀ (r : PyDict) (acc : List String), c ∈ acc → c ∈ rowKeys acc r := by
  intro r
  induction r with
  | nil => intro acc h; exact h
  | cons kv t ih =>
      intro acc h
      exact ih (addKey acc kv.1) (addKey_preserve kv.1 h)

theorem rowKeys_mem {k : String} {v : PyVal} :
    ∀ (r : PyDict) (acc : List String), (k, v) ∈ r → k ∈ rowKeys acc r := by
  intro r
  induction r with
  | nil => intro acc h; cases h
  | cons kv t ih =>
      intro acc h
      rcases List.mem_cons.mp h with h1 | h2
      · rw [← h1]
        exact rowKeys_preserve t _ (addKey_self acc k)
      · exact ih _ h2

theorem unionKeys_aux_preserve {c : String} :
    ∀ (rows : List PyDict) (acc : List String), c ∈ acc →
      c ∈ rows.foldl rowKeys acc := by
  intro rows
  induction rows with
  | nil => intro acc h; exact h
  | cons r t ih => intro acc h; exact ih _ (rowKeys_preserve r acc h)

theorem unionKeys_mem {k : String} {v : PyVal} {r : PyDict} :
    ∀ (rows : List PyDict) (acc : List String), r ∈ rows → (k, v) ∈ r →
      k ∈ rows.foldl rowKeys acc := by
  intro rows
  induction rows with
  | nil => intro acc h; cases h
  | cons r0 t ih =>
      intro acc hr hkv
      rcases List.mem_cons.mp hr with h1 | h2
      · subst h1
        exact unionKeys_aux_preserve t _ (rowKeys_mem _ acc hkv)
      · exact ih _ h2 hkv

theorem zip_align_lookup :
    ∀ (cols : List String) (r : PyDict) (c : String), c ∈ cols →
      (cols.zip (alignRow cols r)).lookup c = some (r.lookup c) := by
  intro cols
  induction cols with
  | nil => intro r c h; cases h
  | cons c0 cs ih =>
      intro r c h
      by_cases hc : c = c0
      · subst hc
        simp [alignRow, List.lookup]
      · have hmem : c ∈ cs := by
          rcases List.mem_cons.mp h with h1 | h2
          · exact absurd h1 hc
          · exact h2
        have hbeq : (c == c0) = false := by
          simpa using hc
        have hstep : ((c0 :: cs).zip (alignRow (c0 :: cs) r)).lookup c =
            (cs.zip (alignRow cs r)).lookup c := by
          simp [alignRow, List.lookup, hbeq, List.zip]
        rw [hstep]
        exact ih r c hmem

theorem range_map_getD {α : Type} :
    ∀ (l : List α) (d : α),
      (List.range l.length).map (fun i => l.getD i d) = l := by
  intro l
  induction l with
  | nil => intro d; rfl
  | cons x xs ih =>
      intro d
      rw [List.length_cons, List.range_succ_eq_map]
      simp only [List.map_cons, List.map_map]
      have hf : ((fun i => (x :: xs).getD i d) ∘ Nat.succ) =
          (fun i => xs.getD i d) := rfl
      rw [hf, ih]
      rfl

theorem map_getD_perm {α : Type} (l : List α) (d : α) (p : List Nat)
    (hp : p.Perm (List.range l.length)) :
    (p.map (fun i => l.getD i d)).Perm l := by
  have h1 := hp.map (fun i => l.getD i d)
  rwa [range_map_getD l d] at h1

/-- What `ledger_to_df` produces on a non-empty ledger whose entries all
build successfully: the union-keyed frame whose rows are the aligned
per-entry rows taken in argsort order. -/
theorem ledger_to_df_ok (ledger : Ledger) (rows : List PyDict)
    (hne : ledger ≠ []) (hrows : ledger.mapM entryToRow = .ok rows) :
    ledger_to_df ledger =
      .ok ⟨unionKeys rows,
           (npy_aquicksort (rows.map roundKey)).map
             (fun i => (rows.map (alignRow (unionKeys rows))).getD i
                (alignRow (unionKeys rows) []))⟩ := by
  unfold ledger_to_df
  rw [if_neg (by simpa using hne), hrows]
  rfl

/-- The reshaped rows are a permutation of the aligned per-entry rows
(one row per record; duplicates kept). -/
theorem ledger_to_df_rows_perm (rows : List PyDict) :
    ((npy_aquicksort (rows.map roundKey)).map
      (fun i => (rows.map (alignRow (unionKeys rows))).getD i
        (alignRow (unionKeys rows) []))).Perm
    (rows.map (alignRow (unionKeys rows))) := by
  apply map_getD_perm
  have h := npy_aquicksort_perm (rows.map roundKey)
  simpa using h

/-- **C4.** For every non-empty ledger whose entries all build
successfully, the reshaped frame has the union of the built rows' keys as
columns (so the six base fields and one `Store_`-prefixed column per node
identifier observed in any record are all present); it has exactly one
row per record — the rows are a permutation of the aligned per-record
rows, each materialised with the full column set; and a record lacking a
column that other records have still carries that column in its row,
holding the NaN "no value" cell (`some none` under column lookup: the
column is present, its value is the no-value marker — not zero and not an
omitted column). -/
theorem C4_node_sparsity (ledger : Ledger) (rows : List PyDict)
    (hne : ledger ≠ []) (hrows : ledger.mapM entryToRow = .ok rows) :
    ∃ f, ledger_to_df ledger = .ok f ∧
      f.cols = unionKeys rows ∧
      f.rows.length = ledger.length ∧
      f.rows.Perm (rows.map (alignRow f.cols)) ∧
      (∀ r ∈ rows, (alignRow f.cols r).length = f.cols.length) ∧
      (∀ r ∈ rows, ∀ kv ∈ r, kv.1 ∈ f.cols) ∧
      (∀ r ∈ rows, ∀ c ∈ f.cols, r.lookup c = none →
        (f.cols.zip (alignRow f.cols r)).lookup c = some none) := by
  refine ⟨_, ledger_to_df_ok ledger rows hne hrows, rfl, ?_, ?_, ?_, ?_, ?_⟩
  · have hperm := ledger_to_df_rows_perm rows
    have hlen := hperm.length_eq
    rw [hlen, List.length_map, mapM_ok_length entryToRow ledger rows hrows]
  · exact ledger_to_df_rows_perm rows
  · intro r _
    simp [alignRow]
  · intro r hr kv hkv
    obtain ⟨k, v⟩ := kv
    exact unionKeys_mem rows [] hr hkv
  · intro r hr c hc hlook
    rw [zip_align_lookup _ r c hc, hlook]

/-- A well-formed two-round ledger in which round 1 reports node `s1`
only, while round 2 reports `s1` and `s2` (so round 1 lacks the `s2`
column). -/
def c4Ledger : Ledger :=
  [[("round", .pyInt 1), ("timestamp", .pyStr "2024-01-01T10:00:00"),
    ("global_accuracy", .pyFloat (1/2)), ("ipfs_hash", .pyStr "Qm1"),
    ("block_tx", .pyStr "0x1"),
    ("node_accuracies", .pyDict [("s1", .pyFloat (1/2))])],
   [("round", .pyInt 2), ("timestamp", .pyStr "2024-01-02T11:00:00"),
    ("global_accuracy", .pyFloat (31/50)), ("ipfs_hash", .pyStr "Qm2"),
    ("block_tx", .pyStr "0x2"),
    ("node_accuracies", .pyDict [("s1", .pyFloat (3/5)), ("s2", .pyFloat (16/25))])]]

/-- The rows `ledger_to_df` builds from `c4Ledger` before framing. -/
def c4Rows : List PyDict :=
  match c4Ledger.mapM entryToRow with
  | .ok r => r
  | .error _ => []

/-- Witness for C4 at `c4Ledger`. -/
theorem C4_node_sparsity_witness :
    ∃ f, ledger_to_df c4Ledger = .ok f ∧
      f.cols = unionKeys c4Rows ∧
      f.rows.length = c4Ledger.length ∧
      f.rows.Perm (c4Rows.map (alignRow f.cols)) ∧
      (∀ r ∈ c4Rows, (alignRow f.cols r).length = f.cols.length) ∧
      (∀ r ∈ c4Rows, ∀ kv ∈ r, kv.1 ∈ f.cols) ∧
      (∀ r ∈ c4Rows, ∀ c ∈ f.cols, r.lookup c = none →
        (f.cols.zip (alignRow f.cols r)).lookup c = some none) :=
  C4_node_sparsity c4Ledger c4Rows (List.cons_ne_nil _ _) rfl

/-! ## C3: ordering and (in)stability of the reshaped rows -/

/-- A minimal well-formed entry with the given round and timestamp. -/
def mkMiniEntry (r : Int) (ts : String) : PyDict :=
  [("round", .pyInt r), ("timestamp", .pyStr ts),
   ("global_accuracy", .pyFloat 0), ("ipfs_hash", .pyStr "h"),
   ("block_tx", .pyStr "b"), ("node_accuracies", .pyDict [])]

/-- Seventeen records sharing `round = 1`, timestamped `"0" … "16"` in
input order — one more row than the introsort's insertion-sort cutoff. -/
def tieLedger : Ledger := (List.range 17).map (fun k => mkMiniEntry 1 (toString k))

/-- The claim's own instance: rounds `[3, 1, 2, 1]`, timestamped
`"a" "b" "c" "d"` in input order. -/
def ledger3121 : Ledger :=
  [mkMiniEntry 3 "a", mkMiniEntry 1 "b", mkMiniEntry 2 "c", mkMiniEntry 1 "d"]

/-- The string values of one column of the reshaped frame, in row order. -/
def dfColumnStr (l : Ledger) (c : String) : List String :=
  match ledger_to_df l with
  | .ok f =>
      f.rows.map (fun r =>
        match seriesGetD f.cols r c none with
        | some (.pyStr s) => s
        | _ => "")
  | .error _ => []

/-- The integer values of one column of the reshaped frame, in row order. -/
def dfColumnInt (l : Ledger) (c : String) : List Int :=
  match ledger_to_df l with
  | .ok f =>
      f.rows.map (fun r =>
        match seriesGetD f.cols r c none with
        | some (.pyInt i) => i
        | _ => 0)
  | .error _ => []

/-- The string values of one field across the raw ledger, in input order. -/
def inputColumnStr (l : Ledger) (c : String) : List String :=
  l.map (fun e =>
    match e.lookup c with
    | some (.pyStr s) => s
    | _ => "")

/-- **C3 counterexample.** On seventeen records of equal round, the
reshaper keeps every row (the timestamp column is a permutation of the
input timestamps) but does **not** keep the relative input order among
the equal-round records: pandas' default `kind='quicksort'` argsort
leaves the insertion-sort regime above 16 elements and its Hoare
partition exchanges equal keys, so the rows come out in the scrambled
order shown — refuting the claimed stable sort. -/
theorem C3_counterexample :
    dfColumnInt tieLedger "round" = List.replicate 17 1 ∧
    (dfColumnStr tieLedger "timestamp").Perm (inputColumnStr tieLedger "timestamp") ∧
    dfColumnStr tieLedger "timestamp" ≠ inputColumnStr tieLedger "timestamp" ∧
    dfColumnStr tieLedger "timestamp" =
      ["0", "14", "13", "12", "11", "10", "9", "15", "8", "6", "5", "4", "3",
       "2", "1", "7", "16"] := by
  refine ⟨by decide, by decide, by decide, by decide⟩

/-- **C3 amended.** For every well-formed non-empty ledger the reshaped
rows are a permutation of the per-record rows — duplicates are kept, not
deduplicated; and on the claim's instance (rounds `[3,1,2,1]`) the result
is ordered `[1,1,2,3]` with the two round-1 rows in their original
relative input order (at 4 rows the argsort stays in its insertion-sort
regime, which is stable).  Tie preservation does not hold for larger
tables (see the counterexample). -/
theorem C3_amended :
    (∀ (ledger : Ledger) (rows : List PyDict), ledger ≠ [] →
      ledger.mapM entryToRow = .ok rows →
      ∃ f, ledger_to_df ledger = .ok f ∧
        f.rows.Perm (rows.map (alignRow (unionKeys rows)))) ∧
    dfColumnInt ledger3121 "round" = [1, 1, 2, 3] ∧
    dfColumnStr ledger3121 "timestamp" = ["b", "d", "c", "a"] := by
  refine ⟨?_, by decide, by decide⟩
  intro ledger rows hne hrows
  exact ⟨_, ledger_to_df_ok ledger rows hne hrows, ledger_to_df_rows_perm rows⟩

/-- Witness for C3 amended at the two-round `c4Ledger`. -/
theorem C3_amended_witness :
    ∃ f, ledger_to_df c4Ledger = .ok f ∧
      f.rows.Perm (c4Rows.map (alignRow (unionKeys c4Rows))) :=
  C3_amended.1 c4Ledger c4Rows (List.cons_ne_nil _ _) rfl

/-! ## C6: the displayed accuracy delta -/

theorem ebind_ok_inv {ε α β : Type} {x : Except ε α} {k : α → Except ε β}
    {r : β} (h : (x >>= k) = .ok r) : ∃ v, x = .ok v ∧ k v = .ok r := by
  cases x with
  | ok v => exact ⟨v, rfl, h⟩
  | error e => exact absurd h (by simp [ebind_error])

/-- **C6.** Whenever a render completes, the displayed global-accuracy
delta is `(latest global_accuracy − previous row's global_accuracy) × 100`
computed on the displayed (trailing-window) table, where the previous
value defaults to the latest when the table has fewer than two rows — so
for a single-row table the delta is exactly zero. -/
theorem C6_accuracy_delta (df : Frame) (n : Int) (out : RenderOutput)
    (latest : List (Option PyVal)) (a b : Rat)
    (hr : render_dashboard_content df n = .ok (.content out))
    (hlast : (frameTail df.rows n).getLast? = some latest)
    (hga : ∃ ca, seriesGetE df.cols latest "global_accuracy" = .ok ca ∧
        numCell ca = .ok (some a))
    (hprev : if 1 < (frameTail df.rows n).length then
        ∃ cb, seriesGetE df.cols
            ((frameTail df.rows n).getD ((frameTail df.rows n).length - 2) [])
            "global_accuracy" = .ok cb ∧ numCell cb = .ok (some b)
      else b = a) :
    out.accDelta = some ((a - b) * 100) ∧
    ((frameTail df.rows n).length = 1 → out.accDelta = some 0) := by
  by_cases hE : df.isEmpty = true
  · unfold render_dashboard_content at hr
    rw [if_pos hE] at hr
    exact absurd hr (by simp)
  · unfold render_dashboard_content at hr
    rw [if_neg hE] at hr
    dsimp only [] at hr
    obtain ⟨ca, hca, hnca⟩ := hga
    obtain ⟨i1, h1, hr⟩ := ebind_ok_inv hr
    obtain ⟨i2, h2, hr⟩ := ebind_ok_inv hr
    rw [hlast] at hr
    obtain ⟨lat, h3, hr⟩ := ebind_ok_inv hr
    have hlat : latest = lat := by
      injection h3
    subst hlat
    obtain ⟨cr, h4, hr⟩ := ebind_ok_inv hr
    obtain ⟨cga, h5, hr⟩ := ebind_ok_inv hr
    rw [hca] at h5
    have hcga : ca = cga := by
      injection h5
    subst hcga
    by_cases hlen : 1 < (frameTail df.rows n).length
    · rw [if_pos hlen] at hprev hr
      obtain ⟨cb, hcb, hncb⟩ := hprev
      obtain ⟨cprev, h6, hr⟩ := ebind_ok_inv hr
      rw [hcb] at h6
      have hcprev : cb = cprev := by injection h6
      subst hcprev
      obtain ⟨vga, h7, hr⟩ := ebind_ok_inv hr
      rw [hnca] at h7
      have hvga : some a = vga := by injection h7
      subst hvga
      obtain ⟨vprev, h8, hr⟩ := ebind_ok_inv hr
      rw [hncb] at h8
      have hvprev : some b = vprev := by injection h8
      subst hvprev
      obtain ⟨ts, h9, hr⟩ := ebind_ok_inv hr
      obtain ⟨ri, h10, hr⟩ := ebind_ok_inv hr
      obtain ⟨gi, h11, hr⟩ := ebind_ok_inv hr
      obtain ⟨u12, h12, hr⟩ := ebind_ok_inv hr
      obtain ⟨u13, h13, hr⟩ := ebind_ok_inv hr
      obtain ⟨u14, h14, hr⟩ := ebind_ok_inv hr
      injection hr with hr2
      injection hr2 with hr3
      rw [← hr3]
      refine ⟨rfl, ?_⟩
      intro h1len
      rw [h1len] at hlen
      exact absurd hlen (by omega)
    · rw [if_neg hlen] at hprev hr
      obtain ⟨cprev, h6, hr⟩ := ebind_ok_inv hr
      have hcprev : ca = cprev := by
        injection h6
      subst hcprev
      obtain ⟨vga, h7, hr⟩ := ebind_ok_inv hr
      rw [hnca] at h7
      have hvga : some a = vga := by injection h7
      subst hvga
      obtain ⟨vprev, h8, hr⟩ := ebind_ok_inv hr
      rw [hnca] at h8
      have hvprev : some a = vprev := by injection h8
      subst hvprev
      obtain ⟨ts, h9, hr⟩ := ebind_ok_inv hr
      obtain ⟨ri, h10, hr⟩ := ebind_ok_inv hr
      obtain ⟨gi, h11, hr⟩ := ebind_ok_inv hr
      obtain ⟨u12, h12, hr⟩ := ebind_ok_inv hr
      obtain ⟨u13, h13, hr⟩ := ebind_ok_inv hr
      obtain ⟨u14, h14, hr⟩ := ebind_ok_inv hr
      injection hr with hr2
      injection hr2 with hr3
      rw [← hr3]
      subst hprev
      constructor
      · rfl
      · intro h1len
        show some ((b - b) * 100) = some 0
        rw [sub_self, zero_mul]

/-- Witness for C6: the single-row frame renders with delta exactly 0. -/
theorem C6_accuracy_delta_witness :
    (renderOutputOf txframe 5).accDelta = some 0 :=
  (C6_accuracy_delta txframe 5 (renderOutputOf txframe 5)
      [some (.pyInt 1), some (.pyStr "t"), some (.pyFloat (1/2)),
       some (.pyStr "h"), some (.pyStr "0xdead"), some (.pyStr "")]
      (1/2) (1/2) rfl rfl
      ⟨some (.pyFloat (1/2)), rfl, rfl⟩
      (by rw [if_neg (by decide)])).2 rfl

end FedSys
